import Mathlib

/-!
Verification development for the Argus observability collector
(Go sources: internal/queue/dlq.go, internal/realtime/hub.go,
internal/storage metrics/query layer, internal/compress/zstd.go).

The Go code is shallowly embedded: pure fragments become Lean functions,
the stateful hub loop becomes an explicit step function on a hub state,
the filesystem effects of the DLQ become explicit operation traces, and
machine integers become Nat/Int (counts and byte values stay far below
any overflow boundary in the modelled code paths). float64 aggregates
are modelled over the rationals; the only rounding the code performs is
math.Round at 2 or 3 decimals, modelled exactly on nonnegative inputs.
-/

namespace Argus

/-! ### Small string utilities shared by the embeddings -/

/-- Boolean test that the first character list is a prefix of the second. -/
def isPrefixChars : List Char → List Char → Bool
  | [], _ => true
  | _ :: _, [] => false
  | n :: ns, h :: hs => n == h && isPrefixChars ns hs

/-- Boolean test that `needle` occurs contiguously inside the second list.
    Models both Go `strings.Contains` and a SQL `LIKE` pattern
    with the needle between two percent wildcards. -/
def containsChars (needle : List Char) : List Char → Bool
  | [] => needle.isEmpty
  | h :: hs => isPrefixChars needle (h :: hs) || containsChars needle hs

/-- Model of `strings.Contains(s, "ERROR")` and of `status LIKE` with
    pattern percent-ERROR-percent, both used by the storage queries. -/
def hasERROR (s : String) : Bool := containsChars "ERROR".data s.data

/-- Model of Go `filepath.Ext` on a final path element: the suffix of the
    name starting at its last dot, empty when the name has no dot. -/
def extChars : List Char → List Char
  | [] => []
  | c :: rest =>
    let r := extChars rest
    if r.isEmpty then (if c = '.' then c :: rest else []) else r

/-- String wrapper for `extChars`. -/
def filepathExt (s : String) : String := ⟨extChars s.data⟩

/-! ### Dead-letter queue (internal/queue/dlq.go)

The DLQ directory is modelled as the list of directory entries returned by
`os.ReadDir`; file reads and removals are modelled as succeeding (the
fault-free filesystem), which is the granularity at which the spec speaks.
The replay callback is a parameter, as in the Go code, returning `true`
exactly when the Go callback returns a nil error. -/

/-- One entry of the DLQ directory, as seen by `os.ReadDir` plus the byte
    content a subsequent `os.ReadFile` would return. -/
structure DirEntry where
  name : String
  isDir : Bool
  data : List Nat
  deriving DecidableEq, Repr

/-- Model of `processFiles`, one tick of the replay worker: directories and
    entries without a dot-json extension are skipped (kept); for each
    remaining file the replay callback runs on its bytes; on success the
    file is removed, on error it is kept for the next tick.
    The result is the list of entries still present after the tick. -/
def processFiles (replayOk : List Nat → Bool) : List DirEntry → List DirEntry
  | [] => []
  | e :: rest =>
    if e.isDir ∨ filepathExt e.name ≠ ".json" then
      e :: processFiles replayOk rest
    else if replayOk e.data then
      processFiles replayOk rest
    else
      e :: processFiles replayOk rest

/-- A minimal JSON document model for the payloads the DLQ writes.
    `json.Marshal` of the batch is modelled as the JSON document the batch
    denotes, so `Enqueue` receives the batch already as a document. -/
inductive Json where
  | null
  | bool (b : Bool)
  | num (n : Int)
  | str (s : String)
  | arr (elems : List Json)
  | obj (fields : List (String × Json))

/-- Whether a JSON document is an object carrying the given top-level key. -/
def Json.hasKey (k : String) : Json → Bool
  | .obj fields => fields.any (fun f => f.1 == k)
  | _ => false

/-- Filesystem effects the enqueue path can perform. -/
inductive FsOp where
  | writeFile (path : String) (content : Json) (mode : Nat)
  | fsyncDir (dir : String)

/-- Whether an effect is a directory fsync. -/
def FsOp.isFsyncDir : FsOp → Bool
  | .fsyncDir _ => true
  | _ => false

/-- Whether an effect writes a JSON object carrying the given top-level key. -/
def FsOp.writesKey (k : String) : FsOp → Bool
  | .writeFile _ c _ => c.hasKey k
  | _ => false

/-- Model of `DeadLetterQueue.Enqueue`: the batch is marshalled and written
    to `dir/batch_<nanos>.json` with mode 0644 (`filepath.Join` modelled as
    slash concatenation). The Go method runs under the DLQ mutex; the model
    is the single-threaded body. The returned list is the trace of
    filesystem effects the call performs. -/
def Enqueue (dir : String) (nowNanos : Nat) (batch : Json) : List FsOp :=
  [FsOp.writeFile (dir ++ "/batch_" ++ toString nowNanos ++ ".json") batch 0o644]

/-- Modelled from the spec: the spec description of `Enqueue` (not present
    in the code), which serializes the batch together with an envelope
    carrying `kind` and `enqueued_at`, writes the file with mode 0644 and
    then fsyncs the directory entry. -/
def EnqueueSpecC3 (dir : String) (nowNanos : Nat) (kind : String) (batch : Json) : List FsOp :=
  [FsOp.writeFile (dir ++ "/batch_" ++ toString nowNanos ++ ".json")
      (Json.obj [("kind", Json.str kind),
                 ("enqueued_at", Json.num (Int.ofNat nowNanos)),
                 ("records", batch)]) 0o644,
   FsOp.fsyncDir dir]

/-! ### Trace query layer (storage repository)

`GetTracesFiltered` interpolates a sort clause into the SQL query; only the
clause computation is security relevant and it is a pure function of the
two caller-supplied strings. -/

/-- The whitelist map of sortable fields, as in `GetTracesFiltered`. -/
def validSorts : List (String × String) :=
  [("timestamp", "timestamp"), ("duration", "duration"),
   ("service_name", "service_name"), ("status", "status"),
   ("trace_id", "trace_id")]

/-- Model of the ORDER BY clause computation in `GetTracesFiltered`:
    default clause `timestamp DESC`; a non-empty `sortBy` found in the
    whitelist yields that field followed by the direction derived from
    `orderBy`. -/
def orderClause (sortBy orderBy : String) : String :=
  if sortBy ≠ "" then
    let direction := if orderBy = "desc" then "DESC" else "ASC"
    match validSorts.lookup sortBy with
    | some field => field ++ " " ++ direction
    | none => "timestamp DESC"
  else "timestamp DESC"

/-- The field whitelist of `GetTracesFiltered` as a list of field names. -/
def sortWhitelist : List String :=
  ["timestamp", "duration", "service_name", "status", "trace_id"]

/-- The fixed finite set of clauses `GetTracesFiltered` can interpolate. -/
def orderClauses : List String :=
  ["timestamp DESC", "timestamp ASC", "duration DESC", "duration ASC",
   "service_name DESC", "service_name ASC", "status DESC", "status ASC",
   "trace_id DESC", "trace_id ASC"]

/-! ### Broadcast hub (internal/realtime/hub.go)

The hub run loop is a select over five channel events; it is embedded as a
step function on the hub state. Client outbound channels (capacity 256)
are modelled by the list of messages they currently hold; a non-blocking
send succeeds exactly when the channel holds fewer than 256 messages.
`json.Marshal` of a batch of log entries is injective on the batch, so a
marshalled message is modelled by the batch it encodes. -/

/-- Mirror of the `LogEntry` struct broadcast to WebSocket clients
    (timestamp as unix nanoseconds, UTC). -/
structure LogEntry where
  id : Nat
  traceID : String
  spanID : String
  severity : String
  body : String
  serviceName : String
  attributesJSON : String
  aiInsight : String
  timestamp : Int
  deriving DecidableEq, Repr

/-- Capacity of each per-client outbound channel (`make(chan []byte, 256)`
    in `HandleWebSocket`). -/
def sendChanCap : Nat := 256

/-- Capacity of the internal broadcast channel (`make(chan LogEntry, 5000)`
    in `NewHub`). -/
def hubBroadcastCap : Nat := 5000

/-- A connected WebSocket client: its identity and the messages currently
    queued on its outbound channel (each message one marshalled batch). -/
structure HClient where
  cid : Nat
  pending : List (List LogEntry)
  deriving DecidableEq, Repr

/-- The hub state owned by the run loop task: the client set, the pending
    log buffer and the configured flush threshold (100 in `NewHub`). -/
structure Hub where
  clients : List HClient
  buffer : List LogEntry
  maxBufferSize : Nat
  deriving DecidableEq, Repr

/-- Externally visible actions a hub step performs: enqueueing a batch
    message on a client channel, or closing a client channel (which makes
    the per-client writer drain and close the connection). -/
inductive HubAction where
  | deliver (cid : Nat) (msg : List LogEntry)
  | closeChan (cid : Nat)
  deriving DecidableEq, Repr

/-- Model of `Hub.flush`: with an empty buffer it returns at once;
    otherwise it swaps the buffer out, marshals it, and performs one
    non-blocking send per client — clients whose channel is full are
    removed from the set and their channel closed. -/
def flush (h : Hub) : Hub × List HubAction :=
  if h.buffer.isEmpty then (h, [])
  else
    let msg := h.buffer
    let kept := (h.clients.filter (fun c => c.pending.length < sendChanCap)).map
        (fun c => { c with pending := c.pending ++ [msg] })
    let acts := h.clients.map (fun c =>
        if c.pending.length < sendChanCap then HubAction.deliver c.cid msg
        else HubAction.closeChan c.cid)
    ({ h with buffer := [], clients := kept }, acts)

/-- The five events the run loop selects over. -/
inductive HubEvent where
  | stop
  | register (c : HClient)
  | unregister (cid : Nat)
  | recvBroadcast (entry : LogEntry)
  | tick
  deriving DecidableEq, Repr

/-- Model of one iteration of `Hub.Run`: the returned triple is the new
    hub state, the actions performed, and whether the loop returned
    (only the stop signal makes it return, after a final flush). -/
def step (h : Hub) : HubEvent → Hub × List HubAction × Bool
  | .stop => ((flush h).1, (flush h).2, true)
  | .register c => ({ h with clients := h.clients ++ [c] }, [], false)
  | .unregister cid =>
      if h.clients.any (fun c => c.cid == cid) then
        ({ h with clients := h.clients.filter (fun c => c.cid ≠ cid) },
         [HubAction.closeChan cid], false)
      else (h, [], false)
  | .recvBroadcast entry =>
      let h' := { h with buffer := h.buffer ++ [entry] }
      if h.maxBufferSize ≤ h'.buffer.length then
        ((flush h').1, (flush h').2, false)
      else (h', [], false)
  | .tick => ((flush h).1, (flush h).2, false)

/-- Model of `Hub.Broadcast`: a non-blocking send onto the internal
    broadcast channel, modelled by its current content. The function is
    total, which is the embedding of never blocking the caller. -/
def Broadcast (q : List LogEntry) (entry : LogEntry) : List LogEntry :=
  if q.length < hubBroadcastCap then q ++ [entry] else q

/-! ### Storage metrics queries (storage repository)

The repository is embedded as in-memory row lists; the GORM/SQL queries of
the metrics layer become pure list computations. Timestamps are unix
seconds as `Int` (the zero `time.Time`, tested by `IsZero`, is modelled as
timestamp 0); SQL `BETWEEN` is the inclusive range test. float64
aggregates are computed over `ℚ`. -/

/-- The trace row columns the metrics queries read. Remaining columns of
    the `traces` table are never consulted by the embedded queries. -/
structure Trace where
  traceID : String
  serviceName : String
  status : String
  duration : Int
  timestamp : Int
  deriving DecidableEq, Repr

/-- The log row columns the dashboard queries read. -/
structure LogRec where
  serviceName : String
  severity : String
  timestamp : Int
  deriving DecidableEq, Repr

/-- The WHERE clauses shared by the dashboard queries: timestamp BETWEEN
    the window bounds, and service_name IN the list when it is non-empty. -/
def tracesInScope (ws we : Int) (svcNames : List String) (traces : List Trace) : List Trace :=
  traces.filter (fun t =>
    decide (ws ≤ t.timestamp ∧ t.timestamp ≤ we) &&
    (svcNames.isEmpty || svcNames.contains t.serviceName))

/-- Same scoping for log rows. -/
def logsInScope (ws we : Int) (svcNames : List String) (logs : List LogRec) : List LogRec :=
  logs.filter (fun l =>
    decide (ws ≤ l.timestamp ∧ l.timestamp ≤ we) &&
    (svcNames.isEmpty || svcNames.contains l.serviceName))

/-- One per-service row of the top-failing-services aggregate. -/
structure ServiceError where
  serviceName : String
  errorCount : Nat
  totalCount : Nat
  errorRate : ℚ
  deriving DecidableEq, Repr

/-- Mirror of the `DashboardStats` aggregate struct. -/
structure DashboardStats where
  totalTraces : Nat
  totalLogs : Nat
  totalErrors : Nat
  avgLatencyMs : ℚ
  errorRate : ℚ
  activeServices : Nat
  p99Latency : Int
  topFailingServices : List ServiceError
  deriving DecidableEq, Repr

/-- Model of `GetDashboardStats`: counts, error rate (percent, guarded by a
    positive trace count), average latency in ms (SQL AVG with COALESCE 0,
    divided by 1000), distinct service count, the p99 latency via the
    ceil-index into the ascending-sorted durations with the bounds clamps
    of the source, and the top five failing services grouped by service
    with a positive error count, ordered by error count descending. -/
def GetDashboardStats (ws we : Int) (svcNames : List String)
    (traces : List Trace) (logs : List LogRec) : DashboardStats :=
  let scopedRows := tracesInScope ws we svcNames traces
  let slogs := logsInScope ws we svcNames logs
  let totalTraces := scopedRows.length
  let totalLogs := slogs.length
  let totalErrors := (scopedRows.filter (fun t => hasERROR t.status)).length
  let errorRate : ℚ :=
    if 0 < totalTraces then ((totalErrors : ℚ) / (totalTraces : ℚ)) * 100 else 0
  let avgDuration : ℚ :=
    if scopedRows.isEmpty then 0
    else ((scopedRows.map (fun t => (t.duration : ℚ))).sum) / (totalTraces : ℚ)
  let activeServices := ((scopedRows.map Trace.serviceName).dedup).length
  let durations := (scopedRows.map Trace.duration).insertionSort (· ≤ ·)
  let p99Latency : Int :=
    if 0 < durations.length then
      let i0 : Int := ⌈(durations.length : ℚ) * (99 / 100)⌉ - 1
      let i1 : Int := if (durations.length : Int) ≤ i0 then (durations.length : Int) - 1 else i0
      let i2 : Int := if i1 < 0 then 0 else i1
      durations.getD i2.toNat 0
    else 0
  let svcList := (scopedRows.map Trace.serviceName).dedup
  let counts := svcList.map (fun s =>
    let group := scopedRows.filter (fun t => t.serviceName == s)
    (s, group.length, (group.filter (fun t => hasERROR t.status)).length))
  let failing := counts.filter (fun x => 0 < x.2.2)
  let ordered := failing.insertionSort (fun a b => b.2.2 ≤ a.2.2)
  let topFailingServices := (ordered.take 5).map (fun x =>
    { serviceName := x.1, errorCount := x.2.2, totalCount := x.2.1,
      errorRate := if 0 < x.2.1 then (x.2.2 : ℚ) / (x.2.1 : ℚ) else 0 })
  { totalTraces := totalTraces, totalLogs := totalLogs,
    totalErrors := totalErrors, avgLatencyMs := avgDuration / 1000,
    errorRate := errorRate, activeServices := activeServices,
    p99Latency := p99Latency, topFailingServices := topFailingServices }

/-- One minute bucket of the traffic chart. -/
structure TrafficPoint where
  timestamp : Int
  count : Nat
  errorCount : Nat
  deriving DecidableEq, Repr

/-- Go `Timestamp.Truncate(time.Minute).Unix()`: flooring the unix-second
    timestamp to a multiple of 60 (`Int.ediv` is floor division). -/
def minuteBucket (ts : Int) : Int := (Int.ediv ts 60) * 60

/-- Model of `GetTrafficMetrics`: scope the trace rows, bucket them by
    minute, count rows and ERROR rows per bucket, and emit the buckets
    sorted by timestamp (the Go map iteration plus final sort yields
    exactly the ascending bucket keys, which are pairwise distinct). -/
def GetTrafficMetrics (ws we : Int) (svcNames : List String)
    (traces : List Trace) : List TrafficPoint :=
  let rows := tracesInScope ws we svcNames traces
  let keys := ((rows.map (fun r => minuteBucket r.timestamp)).dedup).insertionSort (· ≤ ·)
  keys.map (fun ts =>
    let bucket := rows.filter (fun r => minuteBucket r.timestamp == ts)
    { timestamp := ts, count := bucket.length,
      errorCount := (bucket.filter (fun r => hasERROR r.status)).length })

/-- A node of the service map. -/
structure ServiceMapNode where
  name : String
  totalTraces : Nat
  errorCount : Nat
  avgLatencyMs : ℚ
  deriving DecidableEq, Repr

/-- An edge of the service map. -/
structure ServiceMapEdge where
  source : String
  target : String
  callCount : Nat
  avgLatencyMs : ℚ
  errorRate : ℚ
  deriving DecidableEq, Repr

/-- Go `math.Round(x * 100) / 100`; `round` agrees with the Go
    half-away-from-zero rounding on the nonnegative values produced here. -/
def round2 (x : ℚ) : ℚ := ((round (x * 100) : ℤ) : ℚ) / 100

/-- Go `math.Round(x * 1000) / 1000`. -/
def round3 (x : ℚ) : ℚ := ((round (x * 1000) : ℤ) : ℚ) / 1000

/-- The service-map time scope: applied only when both window bounds are
    non-zero times (`!start.IsZero() && !end.IsZero()` in the source). -/
def mapScope (ws we : Int) (traces : List Trace) : List Trace :=
  if ws = 0 ∨ we = 0 then traces
  else traces.filter (fun t => decide (ws ≤ t.timestamp ∧ t.timestamp ≤ we))

/-- Model of the node half of `GetServiceMapMetrics`: group the scopedRows
    trace rows by service name, skip the empty name, and emit count, error
    count and rounded average latency per service. -/
def serviceMapNodes (ws we : Int) (traces : List Trace) : List ServiceMapNode :=
  let scopedRows := mapScope ws we traces
  let svcList := ((scopedRows.map Trace.serviceName).dedup).filter (fun s => s ≠ "")
  svcList.map (fun s =>
    let group := scopedRows.filter (fun t => t.serviceName == s)
    { name := s, totalTraces := group.length,
      errorCount := (group.filter (fun t => hasERROR t.status)).length,
      avgLatencyMs :=
        round2 (((group.map (fun t => (t.duration : ℚ))).sum / (group.length : ℚ)) / 1000) })

/-- The set of services a trace touches, as the source builds it: the
    distinct non-empty service names among the trace rows sharing the
    trace id (the keys of the per-trace Go map). -/
def traceServices (traces : List Trace) (tid : String) : List String :=
  ((traces.filter (fun t => t.traceID == tid && t.serviceName != "")).map
      Trace.serviceName).dedup

/-- The upper-triangular double loop of the source: all pairs taken with
    the earlier list element first. -/
def upperPairs : List String → List (String × String)
  | [] => []
  | x :: xs => xs.map (fun y => (x, y)) ++ upperPairs xs

/-- The edge keys one trace contributes: the upper-triangular pairs of its
    lexicographically sorted service set (`sort.Strings` then the double
    loop with source the earlier name). -/
def edgeKeysOfTrace (traces : List Trace) (tid : String) : List (String × String) :=
  upperPairs ((traceServices traces tid).insertionSort (· ≤ ·))

/-- Per-trace per-service row count, as aggregated into the per-trace map
    of the source. -/
def svcCount (traces : List Trace) (tid s : String) : Nat :=
  (traces.filter (fun t => t.traceID == tid && t.serviceName == s)).length

/-- Per-trace per-service ERROR row count. -/
def svcErrs (traces : List Trace) (tid s : String) : Nat :=
  ((traces.filter (fun t => t.traceID == tid && t.serviceName == s)).filter
      (fun t => hasERROR t.status)).length

/-- Per-trace per-service duration sum. -/
def svcTotalD (traces : List Trace) (tid s : String) : Int :=
  ((traces.filter (fun t => t.traceID == tid && t.serviceName == s)).map
      Trace.duration).sum

/-- The per-edge latency contribution of one trace: the pooled average
    duration of the two endpoint services, in milliseconds. -/
def pairAvgD (traces : List Trace) (tid a b : String) : ℚ :=
  (((svcTotalD traces tid a + svcTotalD traces tid b : Int) : ℚ) /
      ((svcCount traces tid a + svcCount traces tid b : Nat) : ℚ)) / 1000

/-- Model of the edge half of `GetServiceMapMetrics`: every trace
    contributes its upper-triangular service pairs; per distinct pair the
    call count is the number of contributing traces, the error count the
    number of contributing traces where either endpoint service saw an
    ERROR row, and the latency the rounded mean of the per-trace pooled
    averages. The Go map iteration order is unspecified; the model lists
    edges in first-appearance order of their key, which fixes one of the
    admissible orders. -/
def serviceMapEdges (ws we : Int) (traces : List Trace) : List ServiceMapEdge :=
  let scopedRows := mapScope ws we traces
  let tids := ((scopedRows.filter (fun t => t.serviceName != "")).map Trace.traceID).dedup
  let keys := ((tids.map (fun tid => edgeKeysOfTrace scopedRows tid)).flatten).dedup
  keys.map (fun k =>
    let contributing := tids.filter (fun tid => (edgeKeysOfTrace scopedRows tid).contains k)
    let calls := contributing.length
    let errs := (contributing.filter (fun tid =>
        0 < svcErrs scopedRows tid k.1 ∨ 0 < svcErrs scopedRows tid k.2)).length
    let totalMs := (contributing.map (fun tid => pairAvgD scopedRows tid k.1 k.2)).sum
    { source := k.1, target := k.2, callCount := calls,
      avgLatencyMs := round2 (totalMs / (calls : ℚ)),
      errorRate := if 0 < calls then round3 ((errs : ℚ) / (calls : ℚ)) else 0 })

/-! ### Zstandard wrappers (internal/compress/zstd.go)

The zstd library itself (`EncodeAll` / `DecodeAll`) is external to the
repository and enters the model as a codec parameter; its documented
contract — decoding an encoded frame returns the original bytes, and an
encoded frame of non-empty input is never empty — appears as hypotheses
where needed. The wrappers below are the repository code. -/

/-- Model of `compress.Compress`: empty input short-circuits to nil,
    otherwise the pooled encoder runs `EncodeAll`. -/
def Compress (enc : List Nat → List Nat) (data : List Nat) : List Nat :=
  if data.length = 0 then [] else enc data

/-- Model of `compress.Decompress`: empty input short-circuits to nil with
    a nil error, otherwise the pooled decoder runs `DecodeAll`, wrapping a
    decode error. -/
def Decompress (dec : List Nat → Except String (List Nat)) (data : List Nat) :
    Except String (List Nat) :=
  if data.length = 0 then Except.ok []
  else
    match dec data with
    | Except.ok r => Except.ok r
    | Except.error e => Except.error ("zstd decompression failed: " ++ e)

/-! ### Concrete inputs used by the witness and counterexample theorems -/

/-- A replay callback that succeeds exactly on the byte content `[1]`. -/
def dlqReplayW : List Nat → Bool := fun d => d == [1]

/-- A DLQ file whose replay fails under `dlqReplayW`. -/
def dlqEntryW : DirEntry := ⟨"batch_2.json", false, [2]⟩

/-- A DLQ directory with one replayable and one failing file. -/
def dlqEntriesW : List DirEntry := [⟨"batch_1.json", false, [1]⟩, dlqEntryW]

/-- A log entry used by the hub witnesses. -/
def entryW : LogEntry := ⟨1, "t", "s", "INFO", "hello", "svc", "", "", 0⟩

/-- A client with room on its outbound channel. -/
def clientOkW : HClient := ⟨1, []⟩

/-- A client whose outbound channel is full: 256 queued messages. -/
def clientFullW : HClient := ⟨2, List.replicate sendChanCap []⟩

/-- A hub with one ready client and a buffer of 99 entries, one short of
    the flush threshold. -/
def hub99W : Hub := ⟨[clientOkW], List.replicate 99 entryW, 100⟩

/-- A hub with one ready and one full client and a one-entry buffer. -/
def hubMixW : Hub := ⟨[clientOkW, clientFullW], [entryW], 100⟩

/-- A hub with one connected client and an empty buffer. -/
def hubIdleW : Hub := ⟨[clientOkW], [], 100⟩

/-- A hub with one ready client and a one-entry buffer. -/
def hubStopW : Hub := ⟨[clientOkW], [entryW], 100⟩

/-- A trace row outside the window used by the zero-data witness. -/
def traceOutW : Trace := ⟨"t1", "svc", "OK", 100, 1000⟩

/-- A log row outside the window used by the zero-data witness. -/
def logOutW : LogRec := ⟨"svc", "INFO", 5⟩

/-! ### Theorems -/

/-- Helper: one replay tick keeps exactly the entries that are
    directories, lack the json extension, or whose replay fails. -/
theorem processFiles_eq_filter (replayOk : List Nat → Bool) (l : List DirEntry) :
    processFiles replayOk l =
      l.filter (fun e =>
        e.isDir || filepathExt e.name != ".json" || !replayOk e.data) := by
  induction l with
  | nil => rfl
  | cons e rest ih =>
    by_cases h1 : e.isDir
    · simp [processFiles, List.filter_cons, h1, ih]
    · by_cases h2 : filepathExt e.name = ".json"
      · by_cases h3 : replayOk e.data
        · simp [processFiles, List.filter_cons, h1, h2, h3, ih]
        · simp [processFiles, List.filter_cons, h1, h2, h3, ih]
      · simp [processFiles, List.filter_cons, h1, h2, ih]

/-- C1: a DLQ file processed during a replay tick (a non-directory entry
    with the json extension) is absent from the directory afterwards if
    and only if the replay callback succeeded on its bytes; in particular
    a failed replay leaves the file in place for the next tick to retry. -/
theorem C1_dlq_file_removed_iff_replay_success (replayOk : List Nat → Bool)
    (entries : List DirEntry) (e : DirEntry) (he : e ∈ entries)
    (hdir : e.isDir = false) (hext : filepathExt e.name = ".json") :
    (e ∉ processFiles replayOk entries ↔ replayOk e.data = true) ∧
    (replayOk e.data = false → e ∈ processFiles replayOk entries) := by
  have hmem : e ∈ processFiles replayOk entries ↔ replayOk e.data = false := by
    rw [processFiles_eq_filter, List.mem_filter]
    constructor
    · rintro ⟨-, hp⟩
      simpa [hdir, hext] using hp
    · intro hko
      exact ⟨he, by simp [hdir, hext, hko]⟩
  constructor
  · rw [hmem]
    simp
  · intro hko
    exact hmem.mpr hko

/-- Witness for C1 at a concrete directory: the file whose replay fails is
    still present after the tick, and removal is equivalent to success. -/
theorem C1_witness :
    (dlqEntryW ∉ processFiles dlqReplayW dlqEntriesW ↔ dlqReplayW dlqEntryW.data = true) ∧
    (dlqReplayW dlqEntryW.data = false → dlqEntryW ∈ processFiles dlqReplayW dlqEntriesW) :=
  C1_dlq_file_removed_iff_replay_success dlqReplayW dlqEntriesW dlqEntryW
    (by decide) (by decide) (by decide)

/-- C3 counterexample: at a concrete batch, the code's `Enqueue` emits no
    directory fsync and writes a document without an enqueued_at envelope
    key, while the enqueue the claim describes emits both. -/
theorem C3_counterexample :
    (Enqueue "./data/dlq" 1 (Json.arr [])).any FsOp.isFsyncDir = false ∧
    (Enqueue "./data/dlq" 1 (Json.arr [])).any (FsOp.writesKey "enqueued_at") = false ∧
    (EnqueueSpecC3 "./data/dlq" 1 "trace" (Json.arr [])).any FsOp.isFsyncDir = true ∧
    (EnqueueSpecC3 "./data/dlq" 1 "trace" (Json.arr [])).any (FsOp.writesKey "enqueued_at") = true :=
  ⟨rfl, rfl, rfl, by decide⟩

/-- C3 (amended): `Enqueue` serializes the batch itself (no envelope) and
    performs exactly one write, to `batch_<nanos>.json` under the DLQ
    directory with mode 0644, with no directory fsync; writes run under
    the DLQ mutex, modelled as the single-threaded body. -/
theorem C3_amended_enqueue_plain_write (dir : String) (nowNanos : Nat) (batch : Json) :
    Enqueue dir nowNanos batch =
      [FsOp.writeFile (dir ++ "/batch_" ++ toString nowNanos ++ ".json") batch 0o644] ∧
    (Enqueue dir nowNanos batch).any FsOp.isFsyncDir = false :=
  ⟨rfl, rfl⟩

/-- C6: `Broadcast` performs a non-blocking send on the capacity-5000
    internal channel: with free capacity the entry is appended, on a full
    channel the entry is dropped and the channel unchanged; the function
    is total, the embedding of never blocking the caller. -/
theorem C6_broadcast_nonblocking (q : List LogEntry) (entry : LogEntry) :
    hubBroadcastCap = 5000 ∧
    ((q.length < hubBroadcastCap ∧ Broadcast q entry = q ++ [entry]) ∨
     (hubBroadcastCap ≤ q.length ∧ Broadcast q entry = q)) := by
  refine ⟨rfl, ?_⟩
  by_cases h : q.length < hubBroadcastCap
  · exact Or.inl ⟨h, by simp [Broadcast, h]⟩
  · exact Or.inr ⟨Nat.le_of_not_lt h, by simp [Broadcast, h]⟩

/-- C9: given the zstd codec contract (decoding inverts encoding, and an
    encoded non-empty input is never empty), the wrappers round-trip every
    non-empty byte slice with no error, and both return nil with a nil
    error on empty input. -/
theorem C9_zstd_roundtrip (enc : List Nat → List Nat)
    (dec : List Nat → Except String (List Nat))
    (hinv : ∀ d, d ≠ [] → dec (enc d) = Except.ok d)
    (hne : ∀ d, d ≠ [] → enc d ≠ []) :
    (∀ d, d ≠ [] → Decompress dec (Compress enc d) = Except.ok d) ∧
    Compress enc [] = [] ∧ Decompress dec [] = Except.ok [] := by
  refine ⟨?_, rfl, rfl⟩
  intro d hd
  have h1 : Compress enc d = enc d := by
    simp [Compress, List.length_eq_zero, hd]
  have h2 : ¬ (enc d).length = 0 := by
    intro h
    exact hne d hd (List.length_eq_zero.mp h)
  rw [h1]
  simp [Decompress, h2, hinv d hd]

/-- Witness for C9 at a concrete codec and input: round-trip holds for the
    identity codec on the bytes 1, 2, 3. -/
theorem C9_witness :
    Decompress Except.ok (Compress id [1, 2, 3]) = Except.ok [1, 2, 3] :=
  (C9_zstd_roundtrip id Except.ok (fun _ _ => rfl) (fun _ hd => hd)).1 [1, 2, 3] (by decide)

/-- C10: a sortBy outside the whitelist (the empty string included) yields
    the default clause `timestamp DESC`; a whitelisted sortBy yields that
    field with DESC exactly when orderBy is `desc` and ASC otherwise; and
    every reachable clause lies in the fixed finite clause set, regardless
    of caller input. -/
theorem C10_order_clause_whitelisted (sortBy orderBy : String) :
    (sortBy ∉ sortWhitelist → orderClause sortBy orderBy = "timestamp DESC") ∧
    (sortBy ∈ sortWhitelist →
      orderClause sortBy orderBy =
        sortBy ++ " " ++ (if orderBy = "desc" then "DESC" else "ASC")) ∧
    orderClause sortBy orderBy ∈ orderClauses := by
  by_cases hmem : sortBy ∈ sortWhitelist
  · have hcases : sortBy = "timestamp" ∨ sortBy = "duration" ∨
        sortBy = "service_name" ∨ sortBy = "status" ∨ sortBy = "trace_id" := by
      simpa [sortWhitelist] using hmem
    refine ⟨fun hno => absurd hmem hno, fun _ => ?_, ?_⟩ <;>
      rcases hcases with h | h | h | h | h <;> subst h <;>
        by_cases hd : orderBy = "desc" <;>
          simp [orderClause, validSorts, orderClauses, List.lookup, hd]
  · have hne : sortBy ≠ "timestamp" ∧ sortBy ≠ "duration" ∧
        sortBy ≠ "service_name" ∧ sortBy ≠ "status" ∧ sortBy ≠ "trace_id" := by
      simpa [sortWhitelist] using hmem
    have hdef : orderClause sortBy orderBy = "timestamp DESC" := by
      by_cases h0 : sortBy = ""
      · simp [orderClause, h0]
      · have b1 : (sortBy == "timestamp") = false := by simp [hne.1]
        have b2 : (sortBy == "duration") = false := by simp [hne.2.1]
        have b3 : (sortBy == "service_name") = false := by simp [hne.2.2.1]
        have b4 : (sortBy == "status") = false := by simp [hne.2.2.2.1]
        have b5 : (sortBy == "trace_id") = false := by simp [hne.2.2.2.2]
        simp [orderClause, validSorts, h0, List.lookup, b1, b2, b3, b4, b5]
    exact ⟨fun _ => hdef, fun hyes => absurd hyes hmem, by simp [hdef, orderClauses]⟩

/-- Witness for C10 at a concrete non-whitelisted input: an injection
    attempt in sortBy falls back to the default clause. -/
theorem C10_witness :
    "1; DROP TABLE traces" ∉ sortWhitelist ∧
    orderClause "1; DROP TABLE traces" "desc" = "timestamp DESC" :=
  ⟨by decide, (C10_order_clause_whitelisted "1; DROP TABLE traces" "desc").1 (by decide)⟩

/-- Helper: a flush of an empty buffer returns at once and does nothing. -/
theorem flush_empty (h : Hub) (hb : h.buffer = []) : flush h = (h, []) := by
  simp [flush, hb]

/-- Helper: the two components of a flush of a non-empty buffer. -/
theorem flush_components (h : Hub) (hb : h.buffer ≠ []) :
    (flush h).1 =
      { clients := (h.clients.filter (fun c => c.pending.length < sendChanCap)).map
          (fun c => { c with pending := c.pending ++ [h.buffer] }),
        buffer := [], maxBufferSize := h.maxBufferSize } ∧
    (flush h).2 = h.clients.map (fun c =>
      if c.pending.length < sendChanCap then HubAction.deliver c.cid h.buffer
      else HubAction.closeChan c.cid) := by
  have hbe : h.buffer.isEmpty = false := by simp [hb]
  constructor <;> simp [flush, hbe]

/-- Helper: a flush of a non-empty buffer when every client has channel
    room: the batch is delivered to every client and nobody is removed. -/
theorem flush_all_room (h : Hub) (hb : h.buffer ≠ [])
    (hroom : ∀ c ∈ h.clients, c.pending.length < sendChanCap) :
    flush h =
      ({ clients := h.clients.map (fun c => { c with pending := c.pending ++ [h.buffer] }),
         buffer := [], maxBufferSize := h.maxBufferSize },
       h.clients.map (fun c => HubAction.deliver c.cid h.buffer)) := by
  obtain ⟨h1, h2⟩ := flush_components h hb
  have hfilter : h.clients.filter (fun c => c.pending.length < sendChanCap) = h.clients :=
    List.filter_eq_self.mpr (fun c hc => by simpa using hroom c hc)
  have hacts : h.clients.map (fun c =>
      if c.pending.length < sendChanCap then HubAction.deliver c.cid h.buffer
      else HubAction.closeChan c.cid) =
      h.clients.map (fun c => HubAction.deliver c.cid h.buffer) :=
    List.map_congr_left (fun c hc => if_pos (hroom c hc))
  have hpair : flush h = ((flush h).1, (flush h).2) := rfl
  rw [hpair, h1, h2, hfilter, hacts]

/-- C2: in the running loop (the stop signal is settled by the C4
    theorems), the buffer is flushed if and only if an appended entry
    makes it reach the configured threshold of 100 or the 500 ms flush
    ticker fires: the threshold flush and the ticker flush clear the
    buffer and, when every connected client has channel room, enqueue the
    buffered entries as one marshalled-array message on every client
    channel; an under-threshold append only grows the buffer, a ticker
    fire with an empty buffer sends nothing, and register and unregister
    events never flush or deliver. -/
theorem C2_hub_flush_policy (h : Hub) (hmax : h.maxBufferSize = 100)
    (hroom : ∀ c ∈ h.clients, c.pending.length < sendChanCap) :
    (∀ entry, 100 ≤ h.buffer.length + 1 →
      step h (HubEvent.recvBroadcast entry) =
        ({ clients := h.clients.map
            (fun c => { c with pending := c.pending ++ [h.buffer ++ [entry]] }),
           buffer := [], maxBufferSize := h.maxBufferSize },
         h.clients.map (fun c => HubAction.deliver c.cid (h.buffer ++ [entry])), false)) ∧
    (∀ entry, h.buffer.length + 1 < 100 →
      step h (HubEvent.recvBroadcast entry) =
        ({ h with buffer := h.buffer ++ [entry] }, [], false)) ∧
    (h.buffer ≠ [] →
      step h HubEvent.tick =
        ({ clients := h.clients.map (fun c => { c with pending := c.pending ++ [h.buffer] }),
           buffer := [], maxBufferSize := h.maxBufferSize },
         h.clients.map (fun c => HubAction.deliver c.cid h.buffer), false)) ∧
    (h.buffer = [] → step h HubEvent.tick = (h, [], false)) ∧
    (∀ c, step h (HubEvent.register c) = ({ h with clients := h.clients ++ [c] }, [], false)) ∧
    (∀ cid, (step h (HubEvent.unregister cid)).1.buffer = h.buffer ∧
      ∀ cid2 msg, HubAction.deliver cid2 msg ∉ (step h (HubEvent.unregister cid)).2.1) := by
  refine ⟨?_, ?_, ?_, ?_, fun c => rfl, ?_⟩
  · intro entry hlen
    have hcond : h.maxBufferSize ≤ (h.buffer ++ [entry]).length := by
      simpa [hmax] using hlen
    have hflush := flush_all_room { h with buffer := h.buffer ++ [entry] }
      (by simp) hroom
    simp only [step, if_pos hcond]
    rw [hflush]
  · intro entry hlen
    have hcond : ¬ h.maxBufferSize ≤ (h.buffer ++ [entry]).length := by
      simp [hmax]
      omega
    simp only [step, if_neg hcond]
  · intro hb
    have hflush := flush_all_room h hb hroom
    simp only [step]
    rw [hflush]
  · intro hb
    simp only [step]
    rw [flush_empty h hb]
  · intro cid
    by_cases hany : h.clients.any (fun c => c.cid == cid)
    · constructor
      · simp [step, hany]
      · intro cid2 msg
        simp [step, hany]
    · constructor
      · simp [step, hany]
      · intro cid2 msg
        simp [step, hany]

set_option maxRecDepth 4000 in
/-- Witness for C2 at a concrete hub: the hundredth entry triggers an
    immediate flush delivering all hundred entries to the client. -/
theorem C2_witness :
    step hub99W (HubEvent.recvBroadcast entryW) =
      ({ clients := hub99W.clients.map
          (fun c => { c with pending := c.pending ++ [hub99W.buffer ++ [entryW]] }),
         buffer := [], maxBufferSize := hub99W.maxBufferSize },
       hub99W.clients.map (fun c => HubAction.deliver c.cid (hub99W.buffer ++ [entryW])), false) :=
  (C2_hub_flush_policy hub99W rfl (by decide)).1 entryW (by decide)

/-- C4 counterexample: at a hub with one connected client and an empty
    buffer, the stop signal makes the run loop exit after the final flush
    without performing any action: no client channel is closed and the
    client set is untouched, so the hub does not close client connections
    on Stop. -/
theorem C4_counterexample :
    step hubIdleW HubEvent.stop = (hubIdleW, [], true) ∧ hubIdleW.clients ≠ [] := by
  constructor
  · have := flush_empty hubIdleW rfl
    simp only [step]
    rw [this]
  · decide

/-- C4 (amended): on the stop signal the run loop flushes any remaining
    buffered entries (delivering them to every client with channel room)
    and exits, and no further hub iteration runs; but it does not close
    client connections: no channel-close action is performed and the
    client set keeps its size, connections closing only later when clients
    disconnect or are shed as slow. -/
theorem C4_amended_stop_flushes_and_exits (h : Hub)
    (hroom : ∀ c ∈ h.clients, c.pending.length < sendChanCap) :
    (step h HubEvent.stop).1.buffer = [] ∧
    (step h HubEvent.stop).2.2 = true ∧
    (h.buffer ≠ [] →
      (step h HubEvent.stop).2.1 = h.clients.map (fun c => HubAction.deliver c.cid h.buffer)) ∧
    (∀ cid, HubAction.closeChan cid ∉ (step h HubEvent.stop).2.1) ∧
    (step h HubEvent.stop).1.clients.length = h.clients.length := by
  by_cases hb : h.buffer = []
  · have hf := flush_empty h hb
    refine ⟨?_, rfl, fun hne => absurd hb hne, ?_, ?_⟩
    · simp only [step]
      rw [hf, hb]
    · intro cid hmem
      simp only [step] at hmem
      rw [hf] at hmem
      simp at hmem
    · simp only [step]
      rw [hf]
  · have hf := flush_all_room h hb hroom
    refine ⟨?_, rfl, fun _ => ?_, ?_, ?_⟩
    · simp only [step]
      rw [hf]
    · simp only [step]
      rw [hf]
    · intro cid hmem
      simp only [step] at hmem
      rw [hf] at hmem
      obtain ⟨o, -, ho⟩ := List.mem_map.mp hmem
      exact HubAction.noConfusion ho
    · simp only [step]
      rw [hf]
      simp

/-- Witness for C4 at a concrete hub with a one-entry buffer: the stop
    step clears the buffer, exits, delivers the batch, closes nothing. -/
theorem C4_witness :
    (step hubStopW HubEvent.stop).1.buffer = [] ∧
    (step hubStopW HubEvent.stop).2.2 = true ∧
    (step hubStopW HubEvent.stop).2.1 =
      hubStopW.clients.map (fun c => HubAction.deliver c.cid hubStopW.buffer) ∧
    HubAction.closeChan clientOkW.cid ∉ (step hubStopW HubEvent.stop).2.1 :=
  have h := C4_amended_stop_flushes_and_exits hubStopW (by decide)
  ⟨h.1, h.2.1, h.2.2.1 (by decide), h.2.2.2.1 clientOkW.cid⟩

/-- C5: when a flush of a non-empty buffer meets a client whose capacity
    256 outbound channel is full, that client — and only that client — is
    removed from the client set, its channel is closed, and it receives no
    message; every client with channel room stays and has the batch
    message enqueued. The flush is a total function performing only
    non-blocking sends, the embedding of never waiting on a slow client. -/
theorem C5_slow_client_shedding (h : Hub) (hbuf : h.buffer ≠ [])
    (hnodup : (h.clients.map HClient.cid).Nodup)
    (c : HClient) (hc : c ∈ h.clients) :
    (sendChanCap ≤ c.pending.length →
      (∀ c' ∈ (flush h).1.clients, c'.cid ≠ c.cid) ∧
      HubAction.closeChan c.cid ∈ (flush h).2 ∧
      (∀ msg, HubAction.deliver c.cid msg ∉ (flush h).2)) ∧
    (c.pending.length < sendChanCap →
      ({ c with pending := c.pending ++ [h.buffer] } : HClient) ∈ (flush h).1.clients ∧
      HubAction.deliver c.cid h.buffer ∈ (flush h).2) := by
  obtain ⟨hcl, hacts⟩ := flush_components h hbuf
  have hinj : ∀ x ∈ h.clients, ∀ y ∈ h.clients, x.cid = y.cid → x = y :=
    fun x hx y hy hxy => List.inj_on_of_nodup_map hnodup hx hy hxy
  constructor
  · intro hfull
    have hcroom : ¬ c.pending.length < sendChanCap := not_lt.mpr hfull
    refine ⟨?_, ?_, ?_⟩
    · intro c' hc' heq
      rw [hcl] at hc'
      simp only [List.mem_map] at hc'
      obtain ⟨o, ho, rfl⟩ := hc'
      have hof := List.mem_filter.mp ho
      have holt : o.pending.length < sendChanCap := by simpa using hof.2
      have hoc : o = c := hinj o hof.1 c hc (by simpa using heq)
      exact hcroom (hoc ▸ holt)
    · rw [hacts]
      have hm := List.mem_map_of_mem (fun c =>
        if c.pending.length < sendChanCap then HubAction.deliver c.cid h.buffer
        else HubAction.closeChan c.cid) hc
      simpa [if_neg hcroom] using hm
    · intro msg hmem
      rw [hacts] at hmem
      simp only [List.mem_map] at hmem
      obtain ⟨o, ho, hoe⟩ := hmem
      by_cases hr : o.pending.length < sendChanCap
      · rw [if_pos hr] at hoe
        simp only [HubAction.deliver.injEq] at hoe
        exact hcroom (hinj o ho c hc hoe.1 ▸ hr)
      · rw [if_neg hr] at hoe
        exact HubAction.noConfusion hoe
  · intro hroomc
    refine ⟨?_, ?_⟩
    · rw [hcl]
      exact List.mem_map_of_mem _ (List.mem_filter.mpr ⟨hc, by simpa using hroomc⟩)
    · rw [hacts]
      have hm := List.mem_map_of_mem (fun c =>
        if c.pending.length < sendChanCap then HubAction.deliver c.cid h.buffer
        else HubAction.closeChan c.cid) hc
      simpa [if_pos hroomc] using hm

set_option maxRecDepth 4000 in
/-- Witness for C5 at a hub with one ready and one full client: the full
    client's channel is closed, it gets no message, and the ready client
    receives the batch. -/
theorem C5_witness :
    HubAction.closeChan clientFullW.cid ∈ (flush hubMixW).2 ∧
    HubAction.deliver clientFullW.cid hubMixW.buffer ∉ (flush hubMixW).2 ∧
    ({ clientOkW with pending := clientOkW.pending ++ [hubMixW.buffer] } : HClient) ∈
      (flush hubMixW).1.clients :=
  have hslow := (C5_slow_client_shedding hubMixW (by decide) (by decide)
    clientFullW (by decide)).1 (by decide)
  have hok := (C5_slow_client_shedding hubMixW (by decide) (by decide)
    clientOkW (by decide)).2 (by decide)
  ⟨hslow.2.1, hslow.2.2 hubMixW.buffer, hok.1⟩

/-- Helper: the upper-triangular double loop yields n choose 2 pairs. -/
theorem upperPairs_length (l : List String) :
    (upperPairs l).length = l.length.choose 2 := by
  induction l with
  | nil => rfl
  | cons x xs ih =>
    simp only [upperPairs, List.length_append, List.length_map, ih, List.length_cons,
      Nat.choose_succ_succ, Nat.choose_one_right]

/-- Helper: over a strictly ascending list, the upper-triangular pairs are
    exactly the ordered pairs of members. -/
theorem upperPairs_mem (a b : String) (l : List String) (hp : l.Pairwise (· < ·)) :
    (a, b) ∈ upperPairs l ↔ a ∈ l ∧ b ∈ l ∧ a < b := by
  induction l with
  | nil => simp [upperPairs]
  | cons x xs ih =>
    rw [List.pairwise_cons] at hp
    have ihx := ih hp.2
    simp only [upperPairs, List.mem_append, List.mem_map, List.mem_cons, ihx]
    constructor
    · rintro (⟨y, hy, heq⟩ | ⟨ha, hb, hab⟩)
      · rw [Prod.mk.injEq] at heq
        obtain ⟨rfl, rfl⟩ := heq
        exact ⟨Or.inl rfl, Or.inr hy, hp.1 _ hy⟩
      · exact ⟨Or.inr ha, Or.inr hb, hab⟩
    · rintro ⟨rfl | ha, rfl | hb, hab⟩
      · exact absurd hab (lt_irrefl _)
      · exact Or.inl ⟨b, hb, rfl⟩
      · exact absurd hab (not_lt.mpr (le_of_lt (hp.1 a ha)))
      · exact Or.inr ⟨ha, hb, hab⟩

/-- Helper: sorting the deduplicated service set of a trace yields a
    strictly ascending list. -/
theorem sortedServices_pairwise (traces : List Trace) (tid : String) :
    ((traceServices traces tid).insertionSort (· ≤ ·)).Pairwise (· < ·) := by
  have hs : ((traceServices traces tid).insertionSort (· ≤ ·)).Sorted (· ≤ ·) :=
    List.sorted_insertionSort _ _
  have hperm : List.Perm ((traceServices traces tid).insertionSort (· ≤ ·))
      (traceServices traces tid) :=
    List.perm_insertionSort _ _
  have hnd : ((traceServices traces tid).insertionSort (· ≤ ·)).Nodup :=
    hperm.nodup_iff.mpr (List.nodup_dedup _)
  exact (hs.and hnd).imp (fun h => lt_of_le_of_ne h.1 h.2)

/-- C7: the edge keys one trace contributes to the service map are exactly
    the ordered-by-name pairs of distinct services its rows carry — the
    lexicographically smaller name is the source — and their number is the
    binomial coefficient of the service-set size over two; edge direction
    follows only from name order, never from parent and child spans. -/
theorem C7_service_map_upper_triangular (traces : List Trace) (tid : String) (a b : String) :
    ((a, b) ∈ edgeKeysOfTrace traces tid ↔
      a ∈ traceServices traces tid ∧ b ∈ traceServices traces tid ∧ a < b) ∧
    (edgeKeysOfTrace traces tid).length = (traceServices traces tid).length.choose 2 := by
  have hp := sortedServices_pairwise traces tid
  have hperm : List.Perm ((traceServices traces tid).insertionSort (· ≤ ·))
      (traceServices traces tid) :=
    List.perm_insertionSort _ _
  constructor
  · rw [edgeKeysOfTrace, upperPairs_mem a b _ hp]
    simp [hperm.mem_iff]
  · rw [edgeKeysOfTrace, upperPairs_length, hperm.length_eq]

/-- Helper: a window containing no trace timestamp scopes to no rows. -/
theorem tracesInScope_nil (ws we : Int) (svcNames : List String) (traces : List Trace)
    (ht : ∀ t ∈ traces, ¬ (ws ≤ t.timestamp ∧ t.timestamp ≤ we)) :
    tracesInScope ws we svcNames traces = [] := by
  rw [tracesInScope, List.filter_eq_nil_iff]
  intro t htm
  simp [ht t htm]

/-- Helper: a window containing no log timestamp scopes to no rows. -/
theorem logsInScope_nil (ws we : Int) (svcNames : List String) (logs : List LogRec)
    (hl : ∀ l ∈ logs, ¬ (ws ≤ l.timestamp ∧ l.timestamp ≤ we)) :
    logsInScope ws we svcNames logs = [] := by
  rw [logsInScope, List.filter_eq_nil_iff]
  intro l hlm
  simp [hl l hlm]

/-- C8: over a window (with genuine, non-zero bounds) containing none of
    the stored records, the snapshot queries yield zeroed aggregates —
    zero totals, zero error rate, zero average and p99 latency, zero
    active services — and empty lists for the top failing services, the
    per-minute traffic series, and the service-map nodes and edges. -/
theorem C8_snapshot_zero_data (ws we : Int) (svcNames : List String)
    (traces : List Trace) (logs : List LogRec)
    (hws : ws ≠ 0) (hwe : we ≠ 0)
    (ht : ∀ t ∈ traces, ¬ (ws ≤ t.timestamp ∧ t.timestamp ≤ we))
    (hl : ∀ l ∈ logs, ¬ (ws ≤ l.timestamp ∧ l.timestamp ≤ we)) :
    GetDashboardStats ws we svcNames traces logs =
      { totalTraces := 0, totalLogs := 0, totalErrors := 0, avgLatencyMs := 0,
        errorRate := 0, activeServices := 0, p99Latency := 0, topFailingServices := [] } ∧
    GetTrafficMetrics ws we svcNames traces = [] ∧
    serviceMapNodes ws we traces = [] ∧
    serviceMapEdges ws we traces = [] := by
  have h1 := tracesInScope_nil ws we svcNames traces ht
  have h2 := logsInScope_nil ws we svcNames logs hl
  have h3 : mapScope ws we traces = [] := by
    rw [mapScope, if_neg (by tauto)]
    rw [List.filter_eq_nil_iff]
    intro t htm
    simp [ht t htm]
  refine ⟨?_, ?_, ?_, ?_⟩
  · simp [GetDashboardStats, h1, h2]
  · simp [GetTrafficMetrics, h1]
  · simp [serviceMapNodes, h3]
  · simp [serviceMapEdges, h3]

/-- Witness for C8 at a concrete store whose records all lie outside the
    requested window. -/
theorem C8_witness :
    GetDashboardStats 10 20 [] [traceOutW] [logOutW] =
      { totalTraces := 0, totalLogs := 0, totalErrors := 0, avgLatencyMs := 0,
        errorRate := 0, activeServices := 0, p99Latency := 0, topFailingServices := [] } ∧
    GetTrafficMetrics 10 20 [] [traceOutW] = [] ∧
    serviceMapNodes 10 20 [traceOutW] = [] ∧
    serviceMapEdges 10 20 [traceOutW] = [] :=
  C8_snapshot_zero_data 10 20 [] [traceOutW] [logOutW]
    (by decide) (by decide) (by decide) (by decide)

end Argus
